import Mathlib

/-
Verification development for a minimal offline ray tracer (Rust sources
src/main.rs and src/ray.rs).  f64 arithmetic is modelled over the real
numbers; the vec3 / hittable / camera modules are not part of the given
sources, so the definitions the core needs from them are modelled from the
specification and marked as such in their doc comments.
-/

set_option maxHeartbeats 1000000

noncomputable section

/-- Modelled from the spec: the three-component vector type of the missing
vec3 module (components x, y, z; used both as point and as free vector). -/
@[ext]
structure Vec3 where
  x : ℝ
  y : ℝ
  z : ℝ

/-- Modelled from the spec: points are the same structure as vectors. -/
abbrev Point3 := Vec3

/-- Modelled from the spec: colors are component triples as well. -/
abbrev Color := Vec3

instance : Add Vec3 :=
  ⟨fun a b => ⟨a.x + b.x, a.y + b.y, a.z + b.z⟩⟩

instance : Sub Vec3 :=
  ⟨fun a b => ⟨a.x - b.x, a.y - b.y, a.z - b.z⟩⟩

instance : Neg Vec3 :=
  ⟨fun a => ⟨-a.x, -a.y, -a.z⟩⟩

instance : SMul ℝ Vec3 :=
  ⟨fun t v => ⟨t * v.x, t * v.y, t * v.z⟩⟩

@[simp] theorem Vec3.add_x (a b : Vec3) : (a + b).x = a.x + b.x := rfl

@[simp] theorem Vec3.add_y (a b : Vec3) : (a + b).y = a.y + b.y := rfl

@[simp] theorem Vec3.add_z (a b : Vec3) : (a + b).z = a.z + b.z := rfl

@[simp] theorem Vec3.sub_x (a b : Vec3) : (a - b).x = a.x - b.x := rfl

@[simp] theorem Vec3.sub_y (a b : Vec3) : (a - b).y = a.y - b.y := rfl

@[simp] theorem Vec3.sub_z (a b : Vec3) : (a - b).z = a.z - b.z := rfl

@[simp] theorem Vec3.smul_x (t : ℝ) (v : Vec3) : (t • v).x = t * v.x := rfl

@[simp] theorem Vec3.smul_y (t : ℝ) (v : Vec3) : (t • v).y = t * v.y := rfl

@[simp] theorem Vec3.smul_z (t : ℝ) (v : Vec3) : (t • v).z = t * v.z := rfl

/-- Modelled from the spec: dot product of the missing vec3 module. -/
def dot (a b : Vec3) : ℝ := a.x * b.x + a.y * b.y + a.z * b.z

/-- Modelled from the spec: squared length of a vector. -/
def Vec3.length_squared (v : Vec3) : ℝ := v.x * v.x + v.y * v.y + v.z * v.z

/-- Modelled from the spec: length is the square root of the squared length. -/
def Vec3.length (v : Vec3) : ℝ := Real.sqrt v.length_squared

/-- Modelled from the spec: unit-vector normalization, division by the
length (undefined on zero vectors, as in the source). -/
def unit_vector (v : Vec3) : Vec3 := (1 / v.length) • v

/-- The Ray structure of src/ray.rs: an origin point and a direction
vector, not required to be normalized. -/
structure Ray where
  orig : Point3
  dir : Vec3

/-- Ray::new of src/ray.rs. -/
def Ray.new (origin : Point3) (direction : Vec3) : Ray := ⟨origin, direction⟩

/-- Ray::origin of src/ray.rs. -/
def Ray.origin (r : Ray) : Point3 := r.orig

/-- Ray::direction of src/ray.rs. -/
def Ray.direction (r : Ray) : Vec3 := r.dir

/-- Ray::at of src/ray.rs: P(t) = orig + dir * t. -/
def Ray.at (r : Ray) (t : ℝ) : Point3 := r.orig + t • r.dir

/-- The local a of hit_sphere (src/main.rs line 30): squared length of the
ray direction. -/
def sphere_a (r : Ray) : ℝ := r.direction.length_squared

/-- The local half_b of hit_sphere (src/main.rs line 31): dot of
(origin − center) with the ray direction. -/
def sphere_half_b (center : Point3) (r : Ray) : ℝ :=
  dot (r.origin - center) r.direction

/-- The local c of hit_sphere (src/main.rs line 32):
‖origin − center‖² − radius². -/
def sphere_c (center : Point3) (radius : ℝ) (r : Ray) : ℝ :=
  (r.origin - center).length_squared - radius * radius

/-- The discriminant exactly as the code computes it
(src/main.rs line 33): half_b * half_b − 4 * a * c. -/
def code_discriminant (center : Point3) (radius : ℝ) (r : Ray) : ℝ :=
  sphere_half_b center r * sphere_half_b center r
    - 4 * sphere_a r * sphere_c center radius r

/-- The discriminant as the specification states it (spec section 4.4):
half_b² − a·c.  Kept separate from code_discriminant so that the two can be
compared. -/
def spec_discriminant (center : Point3) (radius : ℝ) (r : Ray) : ℝ :=
  sphere_half_b center r * sphere_half_b center r
    - sphere_a r * sphere_c center radius r

/-- The value returned by hit_sphere in the non-negative-discriminant
branch (src/main.rs line 37): (−half_b − sqrt(discriminant)) / a, the
smaller of the two root-formula values. -/
def small_root (center : Point3) (radius : ℝ) (r : Ray) : ℝ :=
  (-sphere_half_b center r - Real.sqrt (code_discriminant center radius r))
    / sphere_a r

/-- The larger root-formula value (−half_b + sqrt(discriminant)) / a of the
specification text; the code never computes it. -/
def large_root (center : Point3) (radius : ℝ) (r : Ray) : ℝ :=
  (-sphere_half_b center r + Real.sqrt (code_discriminant center radius r))
    / sphere_a r

/-- hit_sphere of src/main.rs lines 28-39: returns −1.0 when the computed
discriminant is negative, and otherwise (−half_b − sqrt(discriminant)) / a.
The local lets oc, a, half_b, c, discriminant of the source are the named
definitions sphere_a, sphere_half_b, sphere_c, code_discriminant above. -/
def hit_sphere (center : Point3) (radius : ℝ) (r : Ray) : ℝ :=
  if code_discriminant center radius r < 0 then -1
  else small_root center radius r

/-- Modelled from the spec: the mutable output record of the missing
hittable module — hit point, surface normal, hit parameter t and the
front-face flag. -/
structure HitRecord where
  p : Point3
  normal : Vec3
  t : ℝ
  front_face : Bool

/-- Modelled from the spec: the Hittable capability.  hit(ray, t_min,
t_max, record) → bool with an out-record is modelled as an option-returning
function (the spec explicitly allows return-by-value optionals); the upper
interval bound is an extended real because ray_color passes f64::INFINITY. -/
abbrev Hittable := Ray → ℝ → EReal → Option HitRecord

/-- Modelled from the spec: a scene holding zero primitives, whose hit test
always fails. -/
def empty_world : Hittable := fun _ _ _ => none

/-- The miss branch of ray_color (src/main.rs lines 53-61), factored out:
the secondary fixed analytic sphere test against center (0,0,−2), radius
0.5, accepted only when the returned t is strictly positive, otherwise the
sky gradient blended by the unit direction's vertical component. -/
def background_color (r : Ray) : Color :=
  let t := hit_sphere ⟨0, 0, -2⟩ 0.5 r
  if t > 0 then
    let n := unit_vector (r.at t - (⟨0, 0, -2⟩ : Vec3))
    (0.5 : ℝ) • ⟨n.x + 1, n.y + 1, n.z + 1⟩
  else
    let ud := unit_vector r.direction
    let s := 0.5 * (ud.y + 1)
    (1 - s) • (⟨1, 1, 1⟩ : Color) + s • (⟨0.5, 0.7, 1⟩ : Color)

/-- ray_color of src/main.rs lines 41-62.  The world's hit test is queried
on the interval from 0 to ∞ (f64::INFINITY modelled as ⊤ : EReal); the
random_in_unit_sphere sampler of the missing vec3 module is modelled as an
oracle stream rng of its successive outputs, the current bounce consuming
rng 0 and the recursive call receiving the shifted stream. -/
def ray_color (r : Ray) (world : Hittable) (depth : ℤ) (rng : ℕ → Vec3) :
    Color :=
  if _h : depth ≤ 0 then ⟨0, 0, 0⟩
  else
    match world r 0 ⊤ with
    | some hr =>
        (0.5 : ℝ) • ray_color (Ray.new hr.p (hr.normal + rng 0)) world
          (depth - 1) (fun n => rng (n + 1))
    | none => background_color r
termination_by depth.toNat
decreasing_by
  omega

/-- Fuel-indexed variant of ray_color, structurally recursive on the fuel:
used to state that the recursion of ray_color terminates within
depth.toNat recursive calls. -/
def ray_colorN (n : ℕ) (r : Ray) (world : Hittable) (rng : ℕ → Vec3) :
    Color :=
  match n with
  | 0 => ⟨0, 0, 0⟩
  | Nat.succ m =>
      match world r 0 ⊤ with
      | some hr =>
          (0.5 : ℝ) • ray_colorN m (Ray.new hr.p (hr.normal + rng 0)) world
            (fun k => rng (k + 1))
      | none => background_color r

theorem ray_color_eq_fuel (d : ℤ) (r : Ray) (w : Hittable) (rng : ℕ → Vec3) :
    ray_color r w d rng = ray_colorN d.toNat r w rng := by
  generalize hn : d.toNat = n
  induction n generalizing d r rng with
  | zero =>
      have hd : d ≤ 0 := by omega
      rw [ray_color]
      simp [hd, ray_colorN]
  | succ m ih =>
      have hd : ¬ d ≤ 0 := by omega
      rw [ray_color]
      rw [dif_neg hd]
      cases hw : w r 0 ⊤ with
      | some hr =>
          simp only [ray_colorN, hw]
          rw [ih (d - 1) _ _ (by omega)]
      | none =>
          simp only [ray_colorN, hw]

theorem ray_color_nonpos_depth (r : Ray) (w : Hittable) (d : ℤ)
    (rng : ℕ → Vec3) (hd : d ≤ 0) : ray_color r w d rng = ⟨0, 0, 0⟩ := by
  rw [ray_color_eq_fuel, show d.toNat = 0 by omega]
  rfl

theorem ray_color_hit_case (r : Ray) (w : Hittable) (d : ℤ)
    (rng : ℕ → Vec3) (hr : HitRecord) (hd : 0 < d)
    (hw : w r 0 ⊤ = some hr) :
    ray_color r w d rng =
      (0.5 : ℝ) • ray_color (Ray.new hr.p (hr.normal + rng 0)) w (d - 1)
        (fun n => rng (n + 1)) := by
  rw [ray_color, dif_neg (by omega : ¬ d ≤ 0), hw]

theorem ray_color_miss_case (r : Ray) (w : Hittable) (d : ℤ)
    (rng : ℕ → Vec3) (hd : 0 < d) (hw : w r 0 ⊤ = none) :
    ray_color r w d rng = background_color r := by
  rw [ray_color, dif_neg (by omega : ¬ d ≤ 0), hw]

theorem sqrt_eval (a b : ℝ) (hb : 0 ≤ b) (h : b * b = a) : Real.sqrt a = b := by
  rw [← h]
  exact Real.sqrt_mul_self hb

theorem hit_sphere_of_neg (center : Point3) (radius : ℝ) (r : Ray)
    (hd : code_discriminant center radius r < 0) :
    hit_sphere center radius r = -1 := by
  unfold hit_sphere
  rw [if_pos hd]

theorem hit_sphere_of_nonneg (center : Point3) (radius : ℝ) (r : Ray)
    (hd : 0 ≤ code_discriminant center radius r) :
    hit_sphere center radius r = small_root center radius r := by
  unfold hit_sphere
  rw [if_neg (not_lt.mpr hd)]

theorem unit_vector_of_unit (v : Vec3) (h : v.length_squared = 1) :
    unit_vector v = v := by
  unfold unit_vector Vec3.length
  rw [h, Real.sqrt_one]
  ext <;> simp

theorem background_color_of_miss (r : Ray)
    (hs : hit_sphere ⟨0, 0, -2⟩ 0.5 r ≤ 0) :
    background_color r =
      (1 - 0.5 * ((unit_vector r.direction).y + 1)) • (⟨1, 1, 1⟩ : Color)
        + (0.5 * ((unit_vector r.direction).y + 1)) • (⟨0.5, 0.7, 1⟩ : Color) := by
  simp only [background_color]
  rw [if_neg (not_lt.mpr hs)]

theorem cd_c1 :
    code_discriminant ⟨0, 0, 0⟩ 2 (Ray.new ⟨1, 0, 3⟩ ⟨0, 0, -1⟩) = -15 := by
  unfold code_discriminant sphere_a sphere_half_b sphere_c
  simp [Ray.new, Ray.origin, Ray.direction, dot, Vec3.length_squared]
  norm_num

theorem cd_c2 :
    code_discriminant ⟨0, 0, -2⟩ 0.5 (Ray.new ⟨0, 0, -2⟩ ⟨0, 0, -1⟩) = 1 := by
  unfold code_discriminant sphere_a sphere_half_b sphere_c
  simp [Ray.new, Ray.origin, Ray.direction, dot, Vec3.length_squared]
  norm_num

theorem halfb_c2 :
    sphere_half_b ⟨0, 0, -2⟩ (Ray.new ⟨0, 0, -2⟩ ⟨0, 0, -1⟩) = 0 := by
  unfold sphere_half_b
  simp [Ray.new, Ray.origin, Ray.direction, dot]

theorem a_c2 : sphere_a (Ray.new ⟨0, 0, -2⟩ ⟨0, 0, -1⟩) = 1 := by
  unfold sphere_a
  simp [Ray.new, Ray.direction, Vec3.length_squared]

theorem hit_sphere_c2 :
    hit_sphere ⟨0, 0, -2⟩ 0.5 (Ray.new ⟨0, 0, -2⟩ ⟨0, 0, -1⟩) = -1 := by
  rw [hit_sphere_of_nonneg _ _ _ (by rw [cd_c2]; norm_num)]
  unfold small_root
  rw [cd_c2, halfb_c2, a_c2, Real.sqrt_one]
  norm_num

theorem large_root_c2 :
    large_root ⟨0, 0, -2⟩ 0.5 (Ray.new ⟨0, 0, -2⟩ ⟨0, 0, -1⟩) = 1 := by
  unfold large_root
  rw [cd_c2, halfb_c2, a_c2, Real.sqrt_one]
  norm_num

theorem cd_r10 :
    code_discriminant ⟨0, 0, -2⟩ 0.5 (Ray.new ⟨0, 0.3, -2⟩ ⟨0, 0, -1⟩)
      = 0.64 := by
  unfold code_discriminant sphere_a sphere_half_b sphere_c
  simp [Ray.new, Ray.origin, Ray.direction, dot, Vec3.length_squared]
  norm_num

theorem halfb_r10 :
    sphere_half_b ⟨0, 0, -2⟩ (Ray.new ⟨0, 0.3, -2⟩ ⟨0, 0, -1⟩) = 0 := by
  unfold sphere_half_b
  simp [Ray.new, Ray.origin, Ray.direction, dot]

theorem a_r10 : sphere_a (Ray.new ⟨0, 0.3, -2⟩ ⟨0, 0, -1⟩) = 1 := by
  unfold sphere_a
  simp [Ray.new, Ray.direction, Vec3.length_squared]

theorem sqrt_064 : Real.sqrt 0.64 = 0.8 :=
  sqrt_eval 0.64 0.8 (by norm_num) (by norm_num)

theorem hit_sphere_r10 :
    hit_sphere ⟨0, 0, -2⟩ 0.5 (Ray.new ⟨0, 0.3, -2⟩ ⟨0, 0, -1⟩) = -0.8 := by
  rw [hit_sphere_of_nonneg _ _ _ (by rw [cd_r10]; norm_num)]
  unfold small_root
  rw [cd_r10, halfb_r10, a_r10, sqrt_064]
  norm_num

theorem large_root_r10 :
    large_root ⟨0, 0, -2⟩ 0.5 (Ray.new ⟨0, 0.3, -2⟩ ⟨0, 0, -1⟩) = 0.8 := by
  unfold large_root
  rw [cd_r10, halfb_r10, a_r10, sqrt_064]
  norm_num

theorem hit_sphere_up :
    hit_sphere ⟨0, 0, -2⟩ 0.5 (Ray.new ⟨0, 0, 0⟩ ⟨0, 1, 0⟩) = -1 := by
  apply hit_sphere_of_neg
  unfold code_discriminant sphere_a sphere_half_b sphere_c
  simp [Ray.new, Ray.origin, Ray.direction, dot, Vec3.length_squared]
  norm_num

theorem sd_c1 :
    spec_discriminant ⟨0, 0, 0⟩ 2 (Ray.new ⟨1, 0, 3⟩ ⟨0, 0, -1⟩) = 3 := by
  unfold spec_discriminant sphere_a sphere_half_b sphere_c
  simp [Ray.new, Ray.origin, Ray.direction, dot, Vec3.length_squared]
  norm_num

/-- A fixed oracle stream for instantiating random-sampler-parametric
statements at a concrete input. -/
def rng_zero : ℕ → Vec3 := fun _ => ⟨0, 0, 0⟩

/-- A concrete hit record used to instantiate world-parametric statements. -/
def demo_record : HitRecord := ⟨⟨0, 0, -1⟩, ⟨0, 0, 1⟩, 1, true⟩

/-- An abstract world whose hit test always reports the given record, used
to instantiate world-parametric statements at a concrete input. -/
def one_hit_world (hr : HitRecord) : Hittable := fun _ _ _ => some hr

/-- Modelled from the spec: the camera reduced to its get_ray interface,
deterministic in its viewport coordinates u and v. -/
abbrev Camera := ℝ → ℝ → Ray

/-- A concrete camera used to instantiate camera-parametric statements. -/
def demo_camera : Camera := fun _ _ => Ray.new ⟨0, 0, 0⟩ ⟨0, 0, -1⟩

/-- The per-pixel sample accumulation of main (src/main.rs lines 85-91):
starting from black, each sample draws two pixel jitters and a sampler
stream from the random source and adds ray_color of the camera ray through
the jittered viewport coordinates. -/
def pixel_color (cam : Camera) (world : Hittable) (maxDepth : ℤ)
    (i j imageWidth imageHeight : ℤ)
    (draws : List (ℝ × ℝ × (ℕ → Vec3))) : Color :=
  draws.foldl
    (fun acc dr =>
      acc + ray_color
        (cam (((i : ℝ) + dr.1) / ((imageWidth : ℝ) - 1))
          (((j : ℝ) + dr.2.1) / ((imageHeight : ℝ) - 1)))
        world maxDepth dr.2.2)
    ⟨0, 0, 0⟩

/-- C1: the claim states that hit_sphere returns its no-hit sentinel −1.0
exactly when half_b² − a·c is negative.  The code instead computes the
discriminant as half_b² − 4·a·c (src/main.rs line 33), contradicting both
the specification and the source's own comment that a negative discriminant
means the ray misses: for the sphere of radius 2 at the origin and the ray
from (1,0,3) in direction (0,0,−1) — non-zero direction, positive radius —
the claim's discriminant is 3 ≥ 0 and the ray really meets the sphere at a
positive parameter, yet hit_sphere returns −1. -/
theorem claim_C1_code_bug :
    hit_sphere ⟨0, 0, 0⟩ 2 (Ray.new ⟨1, 0, 3⟩ ⟨0, 0, -1⟩) = -1 ∧
    0 ≤ spec_discriminant ⟨0, 0, 0⟩ 2 (Ray.new ⟨1, 0, 3⟩ ⟨0, 0, -1⟩) ∧
    0 < (Ray.new ⟨1, 0, 3⟩ ⟨0, 0, -1⟩).direction.length_squared ∧
    (0 : ℝ) < 2 ∧
    ∃ t, 0 < t ∧
      ((Ray.new ⟨1, 0, 3⟩ ⟨0, 0, -1⟩).at t - ⟨0, 0, 0⟩).length_squared
        = 2 * 2 := by
  have h3 : Real.sqrt 3 * Real.sqrt 3 = 3 :=
    Real.mul_self_sqrt (by norm_num)
  have h3n : 0 ≤ Real.sqrt 3 := Real.sqrt_nonneg 3
  refine ⟨hit_sphere_of_neg _ _ _ (by rw [cd_c1]; norm_num),
    by rw [sd_c1]; norm_num,
    by simp [Ray.new, Ray.direction, Vec3.length_squared],
    by norm_num,
    3 - Real.sqrt 3, by nlinarith, ?_⟩
  simp [Ray.at, Ray.new, Vec3.length_squared]
  nlinarith

/-- C2 counterexample: for the ray from (0,0,−2) — the center of the fixed
sphere of radius 0.5 — in direction (0,0,−1), the computed discriminant is
1 ≥ 0, the smaller root-formula value −1 is outside the qualifying
interval t > 0 while the larger value 1 is strictly inside it, so the
claimed fallback requires returning the larger root 1; hit_sphere instead
returns −1. -/
theorem claim_C2_counterexample :
    0 ≤ code_discriminant ⟨0, 0, -2⟩ 0.5 (Ray.new ⟨0, 0, -2⟩ ⟨0, 0, -1⟩) ∧
    hit_sphere ⟨0, 0, -2⟩ 0.5 (Ray.new ⟨0, 0, -2⟩ ⟨0, 0, -1⟩) = -1 ∧
    large_root ⟨0, 0, -2⟩ 0.5 (Ray.new ⟨0, 0, -2⟩ ⟨0, 0, -1⟩) = 1 ∧
    ¬ (0 : ℝ) < -1 ∧ (0 : ℝ) < 1 ∧
    hit_sphere ⟨0, 0, -2⟩ 0.5 (Ray.new ⟨0, 0, -2⟩ ⟨0, 0, -1⟩) ≠
      large_root ⟨0, 0, -2⟩ 0.5 (Ray.new ⟨0, 0, -2⟩ ⟨0, 0, -1⟩) := by
  refine ⟨by rw [cd_c2]; norm_num, hit_sphere_c2, large_root_c2,
    by norm_num, by norm_num, ?_⟩
  rw [hit_sphere_c2, large_root_c2]
  norm_num

/-- C2 (amended): when the computed discriminant is non-negative,
hit_sphere returns the smaller root-formula value (−half_b − √disc)/a
unconditionally — even when that value lies outside the qualifying
interval — and never falls back to the larger value; for a ray with
non-degenerate direction the returned value never exceeds the larger
root-formula value. -/
theorem claim_C2_amended (center : Point3) (radius : ℝ) (r : Ray)
    (hd : 0 ≤ code_discriminant center radius r) (ha : 0 < sphere_a r) :
    hit_sphere center radius r = small_root center radius r ∧
    small_root center radius r ≤ large_root center radius r := by
  refine ⟨hit_sphere_of_nonneg _ _ _ hd, ?_⟩
  unfold small_root large_root
  rw [div_le_div_iff ha ha]
  nlinarith [Real.sqrt_nonneg (code_discriminant center radius r), ha]

theorem claim_C2_witness :
    0 ≤ code_discriminant ⟨0, 0, 0⟩ 1 (Ray.new ⟨0, 0, 0⟩ ⟨0, 0, -1⟩) ∧
    0 < sphere_a (Ray.new ⟨0, 0, 0⟩ ⟨0, 0, -1⟩) ∧
    (hit_sphere ⟨0, 0, 0⟩ 1 (Ray.new ⟨0, 0, 0⟩ ⟨0, 0, -1⟩)
        = small_root ⟨0, 0, 0⟩ 1 (Ray.new ⟨0, 0, 0⟩ ⟨0, 0, -1⟩) ∧
      small_root ⟨0, 0, 0⟩ 1 (Ray.new ⟨0, 0, 0⟩ ⟨0, 0, -1⟩)
        ≤ large_root ⟨0, 0, 0⟩ 1 (Ray.new ⟨0, 0, 0⟩ ⟨0, 0, -1⟩)) := by
  have hcd : 0 ≤ code_discriminant ⟨0, 0, 0⟩ 1 (Ray.new ⟨0, 0, 0⟩ ⟨0, 0, -1⟩) := by
    unfold code_discriminant sphere_a sphere_half_b sphere_c
    simp [Ray.new, Ray.origin, Ray.direction, dot, Vec3.length_squared]
  have ha : 0 < sphere_a (Ray.new ⟨0, 0, 0⟩ ⟨0, 0, -1⟩) := by
    unfold sphere_a
    simp [Ray.new, Ray.direction, Vec3.length_squared]
  exact ⟨hcd, ha, claim_C2_amended _ _ _ hcd ha⟩

/-- C3: for every ray, world, random stream and depth ≤ 0, ray_color
returns exactly black, regardless of scene content. -/
theorem claim_C3 (r : Ray) (w : Hittable) (d : ℤ) (rng : ℕ → Vec3)
    (hd : d ≤ 0) : ray_color r w d rng = ⟨0, 0, 0⟩ :=
  ray_color_nonpos_depth r w d rng hd

theorem claim_C3_witness :
    (0 : ℤ) ≤ 0 ∧
    ray_color (Ray.new ⟨0, 0, 0⟩ ⟨0, 1, 0⟩) empty_world 0 rng_zero
      = ⟨0, 0, 0⟩ :=
  ⟨le_refl 0, claim_C3 _ _ _ _ (le_refl 0)⟩

/-- C4: for depth > 0, ray_color queries the world's hit test on the
interval from 0 to ∞, and on success returns 0.5 times the recursive
ray_color of the ray from the recorded hit point in the direction of the
recorded normal plus the sampler's unit-sphere draw, at depth − 1. -/
theorem claim_C4 (r : Ray) (w : Hittable) (d : ℤ) (rng : ℕ → Vec3)
    (hr : HitRecord) (hd : 0 < d) (hw : w r 0 ⊤ = some hr) :
    ray_color r w d rng =
      (0.5 : ℝ) • ray_color (Ray.new hr.p (hr.normal + rng 0)) w (d - 1)
        (fun n => rng (n + 1)) :=
  ray_color_hit_case r w d rng hr hd hw

theorem claim_C4_witness :
    (0 : ℤ) < 1 ∧
    one_hit_world demo_record (Ray.new ⟨0, 0, 0⟩ ⟨0, 0, -1⟩) 0 ⊤
      = some demo_record ∧
    ray_color (Ray.new ⟨0, 0, 0⟩ ⟨0, 0, -1⟩) (one_hit_world demo_record) 1
        rng_zero =
      (0.5 : ℝ) • ray_color
        (Ray.new demo_record.p (demo_record.normal + rng_zero 0))
        (one_hit_world demo_record) 0 (fun n => rng_zero (n + 1)) :=
  ⟨by norm_num, rfl, claim_C4 _ _ _ _ _ (by norm_num) rfl⟩

/-- C5: for depth > 0, when the world's hit test fails, ray_color first
runs the fixed analytic sphere test against center (0,0,−2), radius 0.5;
when that also misses (returned parameter not > 0) it returns the sky
gradient (1−s)·(1,1,1) + s·(0.5,0.7,1) with s = 0.5·(unit_direction.y + 1). -/
theorem claim_C5 (r : Ray) (w : Hittable) (d : ℤ) (rng : ℕ → Vec3)
    (hd : 0 < d) (hw : w r 0 ⊤ = none)
    (hs : hit_sphere ⟨0, 0, -2⟩ 0.5 r ≤ 0) :
    ray_color r w d rng =
      (1 - 0.5 * ((unit_vector r.direction).y + 1)) • (⟨1, 1, 1⟩ : Color)
        + (0.5 * ((unit_vector r.direction).y + 1))
          • (⟨0.5, 0.7, 1⟩ : Color) := by
  rw [ray_color_miss_case r w d rng hd hw, background_color_of_miss r hs]

theorem claim_C5_witness :
    (0 : ℤ) < 1 ∧
    empty_world (Ray.new ⟨0, 0, 0⟩ ⟨0, 1, 0⟩) 0 ⊤ = none ∧
    hit_sphere ⟨0, 0, -2⟩ 0.5 (Ray.new ⟨0, 0, 0⟩ ⟨0, 1, 0⟩) ≤ 0 ∧
    ray_color (Ray.new ⟨0, 0, 0⟩ ⟨0, 1, 0⟩) empty_world 1 rng_zero
      = ⟨0.5, 0.7, 1⟩ := by
  refine ⟨by norm_num, rfl, by rw [hit_sphere_up]; norm_num, ?_⟩
  rw [claim_C5 _ _ _ _ (by norm_num) rfl (by rw [hit_sphere_up]; norm_num)]
  rw [show (Ray.new ⟨0, 0, 0⟩ ⟨0, 1, 0⟩).direction = ⟨0, 1, 0⟩ from rfl]
  rw [unit_vector_of_unit _ (by unfold Vec3.length_squared; norm_num)]
  ext <;> simp <;> norm_num

/-- C6: Ray::at returns origin + direction·t, componentwise, as a pure
total function of the ray and the parameter. -/
theorem claim_C6 (r : Ray) (t : ℝ) :
    r.at t = r.origin + t • r.direction ∧
    (r.at t).x = r.origin.x + r.direction.x * t ∧
    (r.at t).y = r.origin.y + r.direction.y * t ∧
    (r.at t).z = r.origin.z + r.direction.z * t := by
  refine ⟨rfl, ?_, ?_, ?_⟩ <;>
    simp [Ray.at, Ray.origin, Ray.direction] <;> ring

/-- C7: ray_color terminates for every finite starting depth and every
(total) world hit test: it coincides with the fuel-indexed, structurally
recursive ray_colorN run on depth.toNat units of fuel, so the recursion
makes at most max(depth, 0) calls, each decreasing depth by exactly one,
and stops once depth ≤ 0. -/
theorem claim_C7 (r : Ray) (w : Hittable) (d : ℤ) (rng : ℕ → Vec3) :
    ray_color r w d rng = ray_colorN d.toNat r w rng :=
  ray_color_eq_fuel d r w rng

/-- C8: ray_color and the per-pixel sample accumulation built on it are
deterministic apart from the random source: identical rays, worlds, depths
and identical outputs of the random source (sampler streams and pixel
jitters) produce identical colors. -/
theorem claim_C8 (r : Ray) (w : Hittable) (d : ℤ) (rng1 rng2 : ℕ → Vec3)
    (cam : Camera) (i j iw ih : ℤ)
    (draws1 draws2 : List (ℝ × ℝ × (ℕ → Vec3)))
    (h1 : rng1 = rng2) (h2 : draws1 = draws2) :
    ray_color r w d rng1 = ray_color r w d rng2 ∧
    pixel_color cam w d i j iw ih draws1
      = pixel_color cam w d i j iw ih draws2 := by
  subst h1
  subst h2
  exact ⟨rfl, rfl⟩

theorem claim_C8_witness :
    rng_zero = rng_zero ∧
    ray_color (Ray.new ⟨0, 0, 0⟩ ⟨0, 0, -1⟩) empty_world 1 rng_zero
      = ray_color (Ray.new ⟨0, 0, 0⟩ ⟨0, 0, -1⟩) empty_world 1 rng_zero ∧
    pixel_color demo_camera empty_world 50 0 0 400 225 []
      = pixel_color demo_camera empty_world 50 0 0 400 225 [] :=
  ⟨rfl,
    (claim_C8 (Ray.new ⟨0, 0, 0⟩ ⟨0, 0, -1⟩) empty_world 1 rng_zero rng_zero
      demo_camera 0 0 400 225 [] [] rfl rfl).1,
    (claim_C8 (Ray.new ⟨0, 0, 0⟩ ⟨0, 0, -1⟩) empty_world 50 rng_zero rng_zero
      demo_camera 0 0 400 225 [] [] rfl rfl).2⟩

/-- C9: constructing a ray and reading it back round-trips: the origin and
direction accessors return exactly the constructor arguments (rays are
immutable values in this pure embedding, so no operation can alter them
after construction). -/
theorem claim_C9 (o d : Vec3) :
    (Ray.new o d).origin = o ∧ (Ray.new o d).direction = d :=
  ⟨rfl, rfl⟩

theorem ray_color_gradient (r : Ray) (w : Hittable) (d : ℤ)
    (rng : ℕ → Vec3) (hd : 0 < d) (hw : w r 0 ⊤ = none)
    (hs : hit_sphere ⟨0, 0, -2⟩ 0.5 r ≤ 0) :
    ray_color r w d rng =
      (1 - 0.5 * ((unit_vector r.direction).y + 1)) • (⟨1, 1, 1⟩ : Color)
        + (0.5 * ((unit_vector r.direction).y + 1))
          • (⟨0.5, 0.7, 1⟩ : Color) := by
  rw [ray_color_miss_case r w d rng hd hw, background_color_of_miss r hs]

/-- C10: whenever the computed discriminant is non-negative hit_sphere
returns only the smaller root-formula value (−half_b − √disc)/a; that
value can be non-positive while the larger root is positive — concretely,
for the ray from (0, 0.3, −2), a point inside the fixed sphere of center
(0,0,−2) and radius 0.5, in direction (0,0,−1), hit_sphere returns
−0.8 ≤ 0 although the larger root-formula value is positive and the ray
meets the fixed sphere at the positive parameter 2/5, so ray_color falls
through to the sky-gradient value despite the intersection. -/
theorem claim_C10 :
    (∀ (center : Point3) (radius : ℝ) (r : Ray),
        0 ≤ code_discriminant center radius r →
        hit_sphere center radius r = small_root center radius r) ∧
    hit_sphere ⟨0, 0, -2⟩ 0.5 (Ray.new ⟨0, 0.3, -2⟩ ⟨0, 0, -1⟩) = -0.8 ∧
    hit_sphere ⟨0, 0, -2⟩ 0.5 (Ray.new ⟨0, 0.3, -2⟩ ⟨0, 0, -1⟩) ≤ 0 ∧
    0 < large_root ⟨0, 0, -2⟩ 0.5 (Ray.new ⟨0, 0.3, -2⟩ ⟨0, 0, -1⟩) ∧
    (0 : ℝ) < 2 / 5 ∧
    ((Ray.new ⟨0, 0.3, -2⟩ ⟨0, 0, -1⟩).at (2 / 5)
        - ⟨0, 0, -2⟩).length_squared = 0.5 * 0.5 ∧
    ray_color (Ray.new ⟨0, 0.3, -2⟩ ⟨0, 0, -1⟩) empty_world 1 rng_zero
      = ⟨0.75, 0.85, 1⟩ := by
  refine ⟨fun center radius r hd => hit_sphere_of_nonneg _ _ _ hd,
    hit_sphere_r10,
    by rw [hit_sphere_r10]; norm_num,
    by rw [large_root_r10]; norm_num,
    by norm_num,
    by simp [Ray.at, Ray.new, Vec3.length_squared]; norm_num,
    ?_⟩
  rw [ray_color_gradient _ _ _ _ (by norm_num) rfl
    (by rw [hit_sphere_r10]; norm_num)]
  rw [show (Ray.new ⟨0, 0.3, -2⟩ ⟨0, 0, -1⟩).direction = ⟨0, 0, -1⟩
    from rfl]
  rw [unit_vector_of_unit _ (by unfold Vec3.length_squared; norm_num)]
  ext <;> simp <;> norm_num

theorem claim_C10_witness :
    0 ≤ code_discriminant ⟨0, 0, -2⟩ 0.5 (Ray.new ⟨0, 0.3, -2⟩ ⟨0, 0, -1⟩) ∧
    hit_sphere ⟨0, 0, -2⟩ 0.5 (Ray.new ⟨0, 0.3, -2⟩ ⟨0, 0, -1⟩)
      = small_root ⟨0, 0, -2⟩ 0.5 (Ray.new ⟨0, 0.3, -2⟩ ⟨0, 0, -1⟩) :=
  ⟨by rw [cd_r10]; norm_num,
    claim_C10.1 _ _ _ (by rw [cd_r10]; norm_num)⟩
